import Mathlib

/-!
Shallow embedding of `src/Happy_Customer_Bank/src/experiment_utils.py`.

Estimator objects are mutable Python objects; we model them as addresses
into an explicit heap (`Heap`) of `ModelObj` records, so that in-place
mutation (`set_params`, `fit`) and object identity (`deepcopy` allocates a
fresh address) are faithfully represented.  Calls into the external
libraries (sklearn's `cross_validate`, `RandomizedSearchCV.fit`, pandas
CSV reading) are modelled as oracle function parameters; file writes and
warnings are modelled as an explicit `Effect` list.
-/

/-- A Python value as it appears in parameter dicts / result records. -/
inductive PVal where
  | int (i : Int)
  | str (s : String)
  | num (q : Rat)
  | pnone
deriving DecidableEq

instance exceptDecEq {ε α : Type} [DecidableEq ε] [DecidableEq α] :
    DecidableEq (Except ε α) := fun x y =>
  match x, y with
  | .ok a, .ok b =>
    if h : a = b then isTrue (by rw [h]) else isFalse (by intro he; cases he; exact h rfl)
  | .error e, .error f =>
    if h : e = f then isTrue (by rw [h]) else isFalse (by intro he; cases he; exact h rfl)
  | .ok _, .error _ => isFalse (by intro he; cases he)
  | .error _, .ok _ => isFalse (by intro he; cases he)

/-- `str(v)` rendering used by f-strings in `prepare_models_info`. -/
def PVal.render : PVal → String
  | .int i => toString i
  | .str s => s
  | .num q => toString q
  | .pnone => "None"

/-- A parameter dict (insertion-ordered, as Python dicts are). -/
abbrev Params := List (String × PVal)

/-- Key membership in a parameter dict (`"n_jobs" in model.get_params()`). -/
def hasParam (ps : Params) (k : String) : Bool :=
  ps.any (fun p => p.1 == k)

/-- Value lookup in a parameter dict (`getattr(model, param)`). -/
def getParam (ps : Params) (k : String) : Option PVal :=
  (ps.find? (fun p => p.1 == k)).map (fun p => p.2)

/-- Dict update: overwrite the value in place if the key exists, else append
(Python dict / `set_params` attribute-update semantics). -/
def setParam (ps : Params) (k : String) (v : PVal) : Params :=
  if hasParam ps k then ps.map (fun p => if p.1 == k then (k, v) else p)
  else ps ++ [(k, v)]

/-- Apply a whole update dict, left to right (`set_params(**model_params)`). -/
def setParams (ps : Params) (updates : Params) : Params :=
  updates.foldl (fun acc kv => setParam acc kv.1 kv.2) ps

/-- An estimator object: its class name, the class name of its `sampler`
attribute when present (used for `BalancedBaggingClassifier` naming), and
its hyperparameter dict. -/
structure ModelObj where
  className : String
  sampler : Option String
  params : Params
deriving DecidableEq

def mdefault : ModelObj := ⟨"", Option.none, []⟩

/-- The object heap: Python objects live at `Nat` addresses. -/
structure Heap where
  store : List ModelObj
deriving DecidableEq

abbrev Heap.size (h : Heap) : Nat := h.store.length

def Heap.get (h : Heap) (a : Nat) : ModelObj := (h.store[a]?).getD mdefault

def Heap.set (h : Heap) (a : Nat) (m : ModelObj) : Heap := ⟨h.store.set a m⟩

/-- Allocate a fresh object; returns the new heap and the fresh address. -/
def Heap.alloc (h : Heap) (m : ModelObj) : Heap × Nat :=
  (⟨h.store ++ [m]⟩, h.store.length)

/-- `model.set_params(**updates)`: mutates the object in place and returns
the same reference. -/
def setParamsOp (h : Heap) (a : Nat) (updates : Params) : Heap × Nat :=
  (h.set a { h.get a with params := setParams (h.get a).params updates }, a)

/-- `deepcopy(model)`: a fresh object with the same contents. -/
def deepcopyOp (h : Heap) (a : Nat) : Heap × Nat :=
  h.alloc (h.get a)

/-- The effect of `set_params` on the object contents. -/
def setObjParams (m : ModelObj) (updates : Params) : ModelObj :=
  { m with params := setParams m.params updates }

def RANDOM_STATE : Int := 42

def PARAMS_TO_SAVE : List String :=
  ["n_estimators", "class_weight", "min_samples_leaf", "max_samples", "max_features"]

def HANDLE_MISSINGS_MODELS : List String :=
  ["HistGradientBoostingClassifier", "BaggingClassifier",
   "BalancedBagging_OverSampling", "BalancedBagging_UnderSampling"]

/-- `set_model_params(model, model_params)`: deepcopy, then set params on
the copy, returning the copy. -/
def set_model_params (h : Heap) (model : Nat) (model_params : Params) : Heap × Nat :=
  let hc := deepcopyOp h model
  setParamsOp hc.1 hc.2 model_params

/-- One element of the `model_params` argument of `create_models`: a dict,
a list of dicts, or anything else (which triggers the `ValueError`). -/
inductive ParamsEntry where
  | dict (d : Params)
  | list (ds : List Params)
  | other
deriving DecidableEq

def invalidFormatMsg : String :=
  "Invalid format in model_params list. Each element should be either a dictionary or a list of dictionaries."

/-- The initial list comprehension of `create_models`: mutate each base
model in place with `random_state=42` (plus `n_jobs=-1` when the model has
an `n_jobs` parameter); the comprehension collects the same references. -/
def initStep (h : Heap) (a : Nat) : Heap × Nat :=
  if hasParam (h.get a).params "n_jobs" then
    setParamsOp h a [("random_state", .int RANDOM_STATE), ("n_jobs", .int (-1))]
  else
    setParamsOp h a [("random_state", .int RANDOM_STATE)]

def initModels (h : Heap) : List Nat → Heap × List Nat
  | [] => (h, [])
  | a :: rest =>
    let s := initStep h a
    let r := initModels s.1 rest
    (r.1, s.2 :: r.2)

/-- Inner loop of `create_models` for a list-of-dicts entry: one fresh
parametrised copy appended per dict. -/
def applyDicts (h : Heap) (model : Nat) : List Params → Heap × List Nat
  | [] => (h, [])
  | d :: ds =>
    let s := set_model_params h model d
    let r := applyDicts s.1 model ds
    (r.1, s.2 :: r.2)

/-- The `for model, params in zip(models, model_params)` loop.  `zip` reads
from the live, growing `models` list, so the loop is indexed: at step `i`
it reads `models[i]` (stopping if the list is too short) and appends the
new copies at the end. -/
def createLoop (h : Heap) (models : List Nat) (i : Nat) :
    List ParamsEntry → Except String (Heap × List Nat)
  | [] => .ok (h, models)
  | e :: rest =>
    if i < models.length then
      let model := models.getD i 0
      match e with
      | .dict d =>
        let s := set_model_params h model d
        createLoop s.1 (models ++ [s.2]) (i + 1) rest
      | .list ds =>
        let s := applyDicts h model ds
        createLoop s.1 (models ++ s.2) (i + 1) rest
      | .other => .error invalidFormatMsg
    else .ok (h, models)

/-- `create_models(base_models, model_params=None)`. -/
def create_models (h : Heap) (base_models : List Nat)
    (model_params : Option (List ParamsEntry)) : Except String (Heap × List Nat) :=
  let init := initModels h base_models
  match model_params with
  | Option.none => .ok (init.1, init.2)
  | Option.some entries =>
    if entries.isEmpty then .ok (init.1, init.2)
    else createLoop init.1 init.2 0 entries

/-- Display name of a model as computed in `prepare_models_info`
(`BalancedBaggingClassifier` is renamed after its sampler). -/
def displayName (m : ModelObj) : String :=
  if m.className == "BalancedBaggingClassifier" then
    if (m.sampler.getD "NoneType") == "RandomUnderSampler" then
      "BalancedBagging_UnderSampling"
    else "BalancedBagging_OverSampling"
  else m.className

/-- The params string of `prepare_models_info`:
join of the f-strings over the saved params the model has. -/
def renderParams (m : ModelObj) (params_to_save : List String) : String :=
  String.intercalate ", "
    ((params_to_save.filter (fun p => hasParam m.params p)).map
      (fun p => p ++ ": " ++ ((getParam m.params p).getD .pnone).render))

/-- `prepare_models_info(models, params_to_save)`: the parallel lists of
names and rendered parameter strings. -/
def prepare_models_info (h : Heap) (models : List Nat) (params_to_save : List String) :
    List String × List String :=
  (models.map (fun a => displayName (h.get a)),
   models.map (fun a => renderParams (h.get a) params_to_save))

/-- The transformers this repository puts into column transformers and
pipelines. -/
inductive SimpleTransformer where
  | simpleImputer (strategy : String) (fill_value : Int)
  | targetEncoder (random_state : Int)
  | oneHotEncoder (sparse_output : Bool)
  | knnImputer
  | otherTransformer (name : String)
deriving DecidableEq

abbrev ColumnTransformer := List (SimpleTransformer × List String)

/-- `make_column_transformer((t1, cols1), (t2, cols2), ...)`. -/
def make_column_transformer (parts : List (SimpleTransformer × List String)) :
    ColumnTransformer := parts

/-- One step of an sklearn `Pipeline`. -/
inductive PipeStep where
  | col (ct : ColumnTransformer)
  | tr (t : SimpleTransformer)
  | est (m : ModelObj)
deriving DecidableEq

def stepAutoName : PipeStep → String
  | .col _ => "columntransformer"
  | .tr (.simpleImputer _ _) => "simpleimputer"
  | .tr (.targetEncoder _) => "targetencoder"
  | .tr (.oneHotEncoder _) => "onehotencoder"
  | .tr .knnImputer => "knnimputer"
  | .tr (.otherTransformer n) => n.toLower
  | .est m => m.className.toLower

/-- An sklearn `Pipeline`: named steps. -/
abbrev MLPipeline := List (String × PipeStep)

/-- `make_pipeline(step1, step2, ...)`: auto-named steps. -/
def make_pipeline (steps : List PipeStep) : MLPipeline :=
  steps.map (fun s => (stepAutoName s, s))

/-- The feature frame `X`, viewed through `select_dtypes`: its numerical
and categorical column names. -/
structure DataFrameX where
  numCols : List String
  catCols : List String
deriving DecidableEq

/-- `create_preprocessor(X)`. -/
def create_preprocessor (X : DataFrameX) :
    List String × List String × ColumnTransformer :=
  (X.numCols, X.catCols,
   make_column_transformer
     [(.simpleImputer "constant" (-1), X.numCols),
      (.targetEncoder RANDOM_STATE, X.catCols)])

/-- The arrays returned by sklearn's `cross_validate`. -/
structure CVResults where
  test_score : List Rat
  fit_time : List Rat
  score_time : List Rat
deriving DecidableEq

/-- numpy `.mean()` (idealised over the rationals). -/
def npMean (l : List Rat) : Rat := l.sum / (l.length : Rat)

/-- `np.round(q, d)`: round half to even at `d` decimal places
(idealised over the rationals). -/
def roundHalfEven (q : Rat) : Int :=
  let f : Int := q.floor
  let r : Rat := q - (f : Rat)
  if r < (1 : Rat) / 2 then f
  else if r > (1 : Rat) / 2 then f + 1
  else if f % 2 = 0 then f else f + 1

def npRound (d : Nat) (q : Rat) : Rat :=
  ((roundHalfEven (q * (10 : Rat) ^ d) : Int) : Rat) / (10 : Rat) ^ d

/-- A result record / DataFrame row (an insertion-ordered Python dict). -/
abbrev RecordDict := List (String × PVal)

/-- A pandas DataFrame, viewed as its list of rows. -/
abbrev DataFrame := List RecordDict

/-- `cv_scores(pipeline, X, y, model_name, model_params)`.  The call to the
external `cross_validate` (with the fixed scoring/cv/n_jobs settings) is
the oracle `crossValidate`. -/
def cv_scores (crossValidate : MLPipeline → DataFrameX → List Int → CVResults)
    (pipeline : MLPipeline) (X : DataFrameX) (y : List Int)
    (model_name model_params : String) : RecordDict :=
  let cv_results := crossValidate pipeline X y
  let roc_auc := npRound 4 (npMean cv_results.test_score)
  let time := npRound 2 (npMean (List.zipWith (· + ·) cv_results.fit_time cv_results.score_time))
  [("Model", .str model_name),
   ("Parameters", .str model_params),
   ("ROC_AUC", .num roc_auc),
   ("Time[s]", .num time)]

/-- An argument of `create_results_dataframe(*args)`: a list of record
dicts or an existing DataFrame. -/
inductive DFArg where
  | records (rs : List RecordDict)
  | df (d : DataFrame)
deriving DecidableEq

def DFArg.toDF : DFArg → DataFrame
  | .records rs => rs
  | .df d => d

def unboundLocalMsg : String :=
  "UnboundLocalError: local variable df referenced before assignment"

/-- `create_results_dataframe(*args)`: with zero arguments the local `df`
is never assigned and the `return df` raises. -/
def create_results_dataframe (args : List DFArg) : Except String DataFrame :=
  if args.length == 1 then .ok ((args.getD 0 (.df [])).toDF)
  else if args.length > 1 then .ok ((args.map DFArg.toDF).flatten)
  else .error unboundLocalMsg

/-- The condition under which `imputation_test` `continue`s without
fitting: the "none" imputer with a model that cannot handle missings. -/
def skipCond (model_name imputer : String) : Bool :=
  imputer == "none" && !(HANDLE_MISSINGS_MODELS.contains model_name)

/-- `imputation_test(X, y, models, preprocessors)` (the decorated
function's body): nested loop over models and `(imputer, preprocessor)`
pairs, skipping the "none" imputer for models that cannot handle
missings; one record per remaining pair. -/
def imputation_test (crossValidate : MLPipeline → DataFrameX → List Int → CVResults)
    (h : Heap) (X : DataFrameX) (y : List Int) (models : List Nat)
    (preprocessors : List (String × SimpleTransformer)) : Except String DataFrame :=
  let info := prepare_models_info h models PARAMS_TO_SAVE
  let feats := create_preprocessor X
  let results :=
    (models.zip (info.1.zip info.2)).flatMap (fun mnp =>
      preprocessors.filterMap (fun ip =>
        if skipCond mnp.2.1 ip.1 then Option.none
        else
          let preprocessor := make_column_transformer
            [(ip.2, feats.1), (.oneHotEncoder false, feats.2.1)]
          let pipeline := make_pipeline [.col preprocessor, .est (h.get mnp.1)]
          let result := cv_scores crossValidate pipeline X y mnp.2.1 mnp.2.2
          Option.some (result ++ [("Imputation", .str ip.1)])))
  create_results_dataframe [.records results]

/-- `os.path.join` for the paths this repository builds. -/
def pathJoin (a b : String) : String :=
  if a == "" then b
  else if a.endsWith "/" then a ++ b
  else a ++ "/" ++ b

/-- Mean-test-score dictionaries and other additional result data. -/
abbrev TScores := List (String × List Rat)

/-- Python dict assignment `d[k] = v` (keeps the original position of an
existing key). -/
def dictSet (d : TScores) (k : String) (v : List Rat) : TScores :=
  if d.any (fun p => p.1 == k) then
    d.map (fun p => if p.1 == k then (k, v) else p)
  else d ++ [(k, v)]

/-- Observable side effects of the embedded functions. -/
inductive Effect where
  | warn (msg : String)
  | writeCsv (path : String) (df : DataFrame)
  | dumpPipeline (path : String) (p : MLPipeline)
  | dumpScores (path : String) (scores : TScores)
deriving DecidableEq

/-- What `RandomizedSearchCV(...).fit(X, y)` exposes of its result. -/
structure SearchOutcome where
  best_score : Rat
  mean_test_score : List Rat
  rank_test_score : List Nat
  mean_fit_time : List Rat
  mean_score_time : List Rat
  best_estimator : MLPipeline
deriving DecidableEq

/-- A hyperparameter distribution grid. -/
abbrev ParamGrid := List (String × List PVal)

/-- `(mean_fit_time + mean_score_time)[np.where(rank == 1)][0]`:
the combined time at the first rank-1 candidate; `IndexError` if there is
none. -/
def rankOneTime (out : SearchOutcome) : Option Rat :=
  (List.zipWith (· + ·) out.mean_fit_time out.mean_score_time)[out.rank_test_score.findIdx (· == 1)]?

def rsPipeline (p0 p1 : SimpleTransformer) (model : ModelObj) : MLPipeline :=
  [("preprocessor", .tr p0), ("remover", .tr p1), ("model", .est model)]

/-- The `for model, param_grid in zip(models, grids)` loop of
`randomized_search`, threading the accumulated effects, result records and
`test_scores` dict.  The external search is the oracle `search`. -/
def rsLoop (search : MLPipeline → ParamGrid → Nat → DataFrameX → List Int → SearchOutcome)
    (p0 p1 : SimpleTransformer) (n_iter : Nat) (folder : String)
    (X : DataFrameX) (y : List Int) :
    List (ModelObj × ParamGrid) → List Effect × List RecordDict × TScores →
    Except String (List Effect × List RecordDict × TScores)
  | [], acc => .ok acc
  | (model, grid) :: rest, acc =>
    let out := search (rsPipeline p0 p1 model) grid n_iter X y
    let model_name := model.className
    let roc_auc := npRound 4 out.best_score
    match rankOneTime out with
    | Option.none => .error "IndexError"
    | Option.some t =>
      let time := npRound 2 t
      let result : RecordDict :=
        [("Model", .str model_name), ("ROC_AUC", .num roc_auc), ("Time[s]", .num time)]
      let artifact_path := pathJoin folder (model_name ++ ".pkl")
      rsLoop search p0 p1 n_iter folder X y rest
        (acc.1 ++ [.dumpPipeline artifact_path out.best_estimator],
         acc.2.1 ++ [result],
         dictSet acc.2.2 model_name out.mean_test_score)

/-- `randomized_search(X, y, models, grids, preprocessors, n_iter,
save_artifact_folder)` (the decorated function's body): per model, run the
search, record one ranking row, and dump the best estimator to
`save_artifact_folder/<class name>.pkl`. -/
def randomized_search
    (search : MLPipeline → ParamGrid → Nat → DataFrameX → List Int → SearchOutcome)
    (X : DataFrameX) (y : List Int) (models : List ModelObj) (grids : List ParamGrid)
    (preprocessors : List SimpleTransformer) (n_iter : Nat)
    (save_artifact_folder : String) :
    Except String (List Effect × DataFrame × TScores) :=
  match preprocessors with
  | p0 :: p1 :: _ =>
    match rsLoop search p0 p1 n_iter save_artifact_folder X y
        (models.zip grids) ([], [], []) with
    | .error e => .error e
    | .ok acc =>
      match create_results_dataframe [.records acc.2.1] with
      | .error e => .error e
      | .ok df => .ok (acc.1, df, acc.2.2)
  | _ => .error "IndexError"

/-- `file_name.endswith(".csv")`, computed on the character list. -/
def strEndsWith (s suffix : String) : Bool :=
  decide (s.length ≥ suffix.length) &&
    (s.data.drop (s.length - suffix.length) == suffix.data)

/-- `load_results_from_folder(folder_path, columns_to_select)`: the
directory listing and CSV reading are oracles. -/
def selectColumns (df : DataFrame) (cols : List String) : DataFrame :=
  df.map (fun row => cols.filterMap (fun c =>
    ((row.find? (fun p => p.1 == c)).map (fun p => (c, p.2)))))

def load_results_from_folder (listdir : List String) (read_csv : String → DataFrame)
    (folder_path : String) (columns_to_select : List String) :
    Except String DataFrame :=
  let results := listdir.filterMap (fun file_name =>
    if strEndsWith file_name ".csv" then
      Option.some (DFArg.df (selectColumns (read_csv (pathJoin folder_path file_name))
        columns_to_select))
    else Option.none)
  create_results_dataframe results

/-- What a function decorated by `save_result_data` returns to the
wrapper: a DataFrame or a (DataFrame, additional-data) 2-tuple. -/
inductive FuncRet where
  | single (df : DataFrame)
  | withExtra (df : DataFrame) (extra : TScores)
deriving DecidableEq

def FuncRet.primary : FuncRet → DataFrame
  | .single df => df
  | .withExtra df _ => df

def noPathWarning : String := "No path provided, the result data wont be saved."

/-- Truthiness of an optional path keyword argument. -/
def truthyPath : Option String → Bool
  | Option.none => false
  | Option.some s => !s.isEmpty

/-- The `wrapper` of the `save_result_data` decorator, applied to the
decorated function's return value and the two optional path keyword
arguments; produces the effects and the value handed back to the caller. -/
def save_result_data (ret : FuncRet) (save_results_path save_additional_results_path : Option String) :
    List Effect × DataFrame :=
  let results := ret.primary
  let additional : Option TScores :=
    match ret with
    | .single _ => Option.none
    | .withExtra _ ex => Option.some ex
  let e1 : List Effect :=
    match save_results_path with
    | Option.some s => if s.isEmpty then [.warn noPathWarning] else [.writeCsv s results]
    | Option.none => [.warn noPathWarning]
  let e2 : List Effect :=
    match additional, save_additional_results_path with
    | Option.some ex, Option.some s =>
      if ex.isEmpty || s.isEmpty then [] else [.dumpScores s ex]
    | _, _ => []
  (e1 ++ e2, results)

/-- `process_fold(train_idx, test_idx, X, y, estimator)`: slice the fold,
deepcopy the estimator, fit and predict on the copy.  The external `fit`
and `predict_proba(...)[:, 1]` calls are oracles acting on the object
contents. -/
def process_fold {Row : Type}
    (fitOracle : ModelObj → List Row → List Int → ModelObj)
    (predictOracle : ModelObj → List Row → List Rat)
    (h : Heap) (train_idx test_idx : List Nat) (X : List Row) (y : List Int)
    (estimator : Nat) : Heap × List Int × List Rat :=
  let X_train := train_idx.filterMap (fun i => X[i]?)
  let X_test := test_idx.filterMap (fun i => X[i]?)
  let y_train := train_idx.filterMap (fun i => y[i]?)
  let y_test := test_idx.filterMap (fun i => y[i]?)
  let hc := deepcopyOp h estimator
  let h2 := hc.1.set hc.2 (fitOracle (hc.1.get hc.2) X_train y_train)
  let y_proba := predictOracle (h2.get hc.2) X_test
  (h2, y_test, y_proba)

/-- Total number of parameter dicts supplied in a `model_params` list. -/
def totalDicts : List ParamsEntry → Nat
  | [] => 0
  | .dict _ :: rest => 1 + totalDicts rest
  | .list ds :: rest => ds.length + totalDicts rest
  | .other :: rest => totalDicts rest

/-- The object contents of the models `createLoop` appends, read off the
heap and index state at loop entry. -/
def appendedSpec (h : Heap) (models : List Nat) : Nat → List ParamsEntry → List ModelObj
  | _, [] => []
  | i, .dict d :: rest =>
    setObjParams (h.get (models.getD i 0)) d :: appendedSpec h models (i + 1) rest
  | i, .list ds :: rest =>
    ds.map (setObjParams (h.get (models.getD i 0))) ++ appendedSpec h models (i + 1) rest
  | i, .other :: rest => appendedSpec h models (i + 1) rest

/-- The in-place update `create_models` performs on each base model. -/
def applyInit (m : ModelObj) : ModelObj :=
  if hasParam m.params "n_jobs" then
    setObjParams m [("random_state", .int RANDOM_STATE), ("n_jobs", .int (-1))]
  else
    setObjParams m [("random_state", .int RANDOM_STATE)]


/-- The row `randomized_search` records for one `(model, grid)` pair. -/
def rsRowSpec (search : MLPipeline → ParamGrid → Nat → DataFrameX → List Int → SearchOutcome)
    (p0 p1 : SimpleTransformer) (n_iter : Nat) (X : DataFrameX) (y : List Int)
    (mg : ModelObj × ParamGrid) : RecordDict :=
  [("Model", PVal.str mg.1.className),
   ("ROC_AUC", PVal.num (npRound 4 (search (rsPipeline p0 p1 mg.1) mg.2 n_iter X y).best_score)),
   ("Time[s]", PVal.num (npRound 2
     ((rankOneTime (search (rsPipeline p0 p1 mg.1) mg.2 n_iter X y)).getD 0)))]

/-- The artifact dump `randomized_search` performs for one `(model, grid)`
pair: the best estimator, at `save_artifact_folder/<class name>.pkl`. -/
def rsEffSpec (search : MLPipeline → ParamGrid → Nat → DataFrameX → List Int → SearchOutcome)
    (p0 p1 : SimpleTransformer) (n_iter : Nat) (folder : String)
    (X : DataFrameX) (y : List Int) (mg : ModelObj × ParamGrid) : Effect :=
  Effect.dumpPipeline (pathJoin folder (mg.1.className ++ ".pkl"))
    (search (rsPipeline p0 p1 mg.1) mg.2 n_iter X y).best_estimator

/-- Concrete sample objects used by witnesses and counterexamples. -/
def rfModel : ModelObj := ⟨"RandomForestClassifier", Option.none, [("n_jobs", .int 1)]⟩

def lrModel : ModelObj := ⟨"LogisticRegression", Option.none, []⟩

def heap2 : Heap := ⟨[rfModel, lrModel]⟩

def dfSample : DataFrame := [[("Model", PVal.str "RandomForestClassifier")]]

def searchO : MLPipeline → ParamGrid → Nat → DataFrameX → List Int → SearchOutcome :=
  fun _ _ _ _ _ => ⟨1 / 2, [1 / 2], [1], [1 / 10], [1 / 5], []⟩

def gridsW : List ParamGrid := [[("C", [PVal.num 1])]]

/-! ### Lemmas about parameter dicts -/

theorem findP_cons_pos {α : Type} (f : α → Bool) (x : α) (l : List α) (h : f x = true) :
    List.find? f (x :: l) = Option.some x :=
  List.find?_cons_of_pos l h

theorem findP_cons_neg {α : Type} (f : α → Bool) (x : α) (l : List α) (h : f x = false) :
    List.find? f (x :: l) = List.find? f l :=
  List.find?_cons_of_neg l (by simp [h])

theorem find?_map_upd (ps : Params) (k : String) (v : PVal) :
    List.find? (fun p => p.1 == k) (ps.map (fun p => if p.1 == k then (k, v) else p))
      = if hasParam ps k then Option.some (k, v) else Option.none := by
  induction ps with
  | nil => simp [hasParam]
  | cons p t ih =>
    rw [List.map_cons]
    by_cases hp : p.1 = k
    · rw [if_pos (by simp [hp]),
        findP_cons_pos (fun p => p.1 == k) (k, v) _ (by simp)]
      have : hasParam (p :: t) k = true := by simp [hasParam, hp]
      rw [this, if_pos rfl]
    · rw [if_neg (by simp [hp]),
        findP_cons_neg (fun p => p.1 == k) p _ (by simp [hp]), ih]
      have : hasParam (p :: t) k = hasParam t k := by
        simp [hasParam, hp]
      rw [this]

theorem find?_append_upd (ps : Params) (k : String) (v : PVal)
    (h : hasParam ps k = false) :
    List.find? (fun p => p.1 == k) (ps ++ [(k, v)]) = Option.some (k, v) := by
  induction ps with
  | nil => rw [List.nil_append, findP_cons_pos (fun p => p.1 == k) (k, v) _ (by simp)]
  | cons p t ih =>
    simp only [hasParam, List.any_cons, Bool.or_eq_false_iff] at h
    rw [List.cons_append, findP_cons_neg (fun p => p.1 == k) p _ h.1]
    exact ih (by simpa [hasParam] using h.2)

theorem find?_map_upd_ne (ps : Params) (k k' : String) (v : PVal) (hne : k' ≠ k) :
    List.find? (fun p => p.1 == k') (ps.map (fun p => if p.1 == k then (k, v) else p))
      = List.find? (fun p => p.1 == k') ps := by
  induction ps with
  | nil => rfl
  | cons p t ih =>
    rw [List.map_cons]
    by_cases hp : p.1 = k
    · rw [if_pos (by simp [hp]),
        findP_cons_neg (fun p => p.1 == k') (k, v) _ (by simp [Ne.symm hne]),
        findP_cons_neg (fun p => p.1 == k') p _ (by simp [hp, Ne.symm hne]), ih]
    · rw [if_neg (by simp [hp])]
      by_cases hq : p.1 = k'
      · rw [findP_cons_pos (fun p => p.1 == k') p _ (by simp [hq]),
          findP_cons_pos (fun p => p.1 == k') p _ (by simp [hq])]
      · rw [findP_cons_neg (fun p => p.1 == k') p _ (by simp [hq]),
          findP_cons_neg (fun p => p.1 == k') p _ (by simp [hq]), ih]

theorem find?_append_ne (ps : Params) (k k' : String) (v : PVal) (hne : k' ≠ k) :
    List.find? (fun p => p.1 == k') (ps ++ [(k, v)])
      = List.find? (fun p => p.1 == k') ps := by
  induction ps with
  | nil =>
    rw [List.nil_append, findP_cons_neg (fun p => p.1 == k') (k, v) _ (by simp [Ne.symm hne])]
  | cons p t ih =>
    by_cases hq : p.1 = k'
    · rw [List.cons_append, findP_cons_pos (fun p => p.1 == k') p _ (by simp [hq]),
        findP_cons_pos (fun p => p.1 == k') p _ (by simp [hq])]
    · rw [List.cons_append, findP_cons_neg (fun p => p.1 == k') p _ (by simp [hq]),
        findP_cons_neg (fun p => p.1 == k') p _ (by simp [hq]), ih]

theorem getParam_setParam_self (ps : Params) (k : String) (v : PVal) :
    getParam (setParam ps k v) k = Option.some v := by
  by_cases h : hasParam ps k
  · rw [getParam, setParam, if_pos h, find?_map_upd, if_pos h]
    rfl
  · simp only [Bool.not_eq_true] at h
    rw [getParam, setParam, if_neg (by simp [h]), find?_append_upd ps k v h]
    rfl

theorem getParam_setParam_ne (ps : Params) (k k' : String) (v : PVal) (hne : k' ≠ k) :
    getParam (setParam ps k v) k' = getParam ps k' := by
  by_cases h : hasParam ps k
  · rw [getParam, setParam, if_pos h, find?_map_upd_ne ps k k' v hne]
    rfl
  · simp only [Bool.not_eq_true] at h
    rw [getParam, setParam, if_neg (by simp [h]), find?_append_ne ps k k' v hne]
    rfl

theorem applyInit_random_state (m : ModelObj) :
    getParam (applyInit m).params "random_state" = Option.some (.int 42) := by
  unfold applyInit setObjParams setParams
  by_cases h : hasParam m.params "n_jobs"
  · simp only [h, if_true, List.foldl]
    rw [getParam_setParam_ne _ _ _ _ (by decide), getParam_setParam_self]
    rfl
  · simp only [h, Bool.false_eq_true, if_false, List.foldl]
    rw [getParam_setParam_self]
    rfl

theorem applyInit_n_jobs (m : ModelObj) (h : hasParam m.params "n_jobs" = true) :
    getParam (applyInit m).params "n_jobs" = Option.some (.int (-1)) := by
  unfold applyInit setObjParams setParams
  simp only [h, if_true, List.foldl]
  rw [getParam_setParam_self]

/-! ### Heap lemmas -/

theorem Heap.get_set_self (h : Heap) (a : Nat) (m : ModelObj) (ha : a < h.size) :
    (h.set a m).get a = m := by
  simp [Heap.get, Heap.set, List.getElem?_set_self ha]

theorem Heap.get_set_ne (h : Heap) (a b : Nat) (m : ModelObj) (hne : a ≠ b) :
    (h.set a m).get b = h.get b := by
  simp [Heap.get, Heap.set, List.getElem?_set_ne hne]

theorem Heap.size_set (h : Heap) (a : Nat) (m : ModelObj) :
    (h.set a m).size = h.size := by
  simp [Heap.size, Heap.set]

theorem Heap.get_ext (h : Heap) (m : ModelObj) (a : Nat) (ha : a < h.size) :
    (⟨h.store ++ [m]⟩ : Heap).get a = h.get a := by
  simp [Heap.get, List.getElem?_append_left ha]

theorem Heap.get_ext_last (h : Heap) (m : ModelObj) :
    (⟨h.store ++ [m]⟩ : Heap).get h.size = m := by
  simp [Heap.get, Heap.size]

/-! ### `set_model_params` lemmas -/

theorem smp_addr (h : Heap) (model : Nat) (d : Params) :
    (set_model_params h model d).2 = h.size := rfl

theorem smp_size (h : Heap) (model : Nat) (d : Params) :
    (set_model_params h model d).1.size = h.size + 1 := by
  simp [set_model_params, deepcopyOp, Heap.alloc, setParamsOp, Heap.set, Heap.size]

theorem smp_get_new (h : Heap) (model : Nat) (d : Params) :
    (set_model_params h model d).1.get h.size = setObjParams (h.get model) d := by
  unfold set_model_params deepcopyOp Heap.alloc setParamsOp
  simp only
  rw [Heap.get_set_self _ _ _ (by simp [Heap.size]),
    Heap.get_ext_last h (h.get model)]
  rfl

theorem smp_get_old (h : Heap) (model : Nat) (d : Params) (a : Nat) (ha : a < h.size) :
    (set_model_params h model d).1.get a = h.get a := by
  unfold set_model_params deepcopyOp Heap.alloc setParamsOp
  simp only
  rw [Heap.get_set_ne _ _ _ _ (Nat.ne_of_gt ha), Heap.get_ext h _ a ha]

/-! ### `initModels` lemmas -/

theorem initStep_addr (h : Heap) (a : Nat) : (initStep h a).2 = a := by
  unfold initStep setParamsOp
  split <;> rfl

theorem initStep_size (h : Heap) (a : Nat) : (initStep h a).1.size = h.size := by
  unfold initStep setParamsOp
  split <;> simp [Heap.size_set]

theorem initStep_get_self (h : Heap) (a : Nat) (ha : a < h.size) :
    (initStep h a).1.get a = applyInit (h.get a) := by
  unfold initStep applyInit setParamsOp setObjParams
  by_cases hc : hasParam (h.get a).params "n_jobs" <;>
    simp only [hc, if_true, Bool.false_eq_true, if_false] <;>
    rw [Heap.get_set_self _ _ _ ha]

theorem initStep_get_ne (h : Heap) (a b : Nat) (hne : a ≠ b) :
    (initStep h a).1.get b = h.get b := by
  unfold initStep setParamsOp
  split <;> exact Heap.get_set_ne _ _ _ _ hne

theorem initModels_snd (h : Heap) (l : List Nat) : (initModels h l).2 = l := by
  induction l generalizing h with
  | nil => rfl
  | cons a t ih => simp [initModels, initStep_addr, ih]

theorem initModels_size (h : Heap) (l : List Nat) :
    (initModels h l).1.size = h.size := by
  induction l generalizing h with
  | nil => rfl
  | cons a t ih => simp [initModels, ih, initStep_size]

theorem initModels_get_notin (h : Heap) (l : List Nat) (b : Nat) (hb : b ∉ l) :
    (initModels h l).1.get b = h.get b := by
  induction l generalizing h with
  | nil => rfl
  | cons a t ih =>
    simp only [List.mem_cons, not_or] at hb
    simp only [initModels]
    rw [ih _ hb.2, initStep_get_ne _ _ _ (fun e => hb.1 e.symm)]

theorem initModels_get_mem (h : Heap) (l : List Nat) (hnd : l.Nodup)
    (hv : ∀ a ∈ l, a < h.size) (a : Nat) (ha : a ∈ l) :
    (initModels h l).1.get a = applyInit (h.get a) := by
  induction l generalizing h with
  | nil => cases ha
  | cons b t ih =>
    simp only [List.nodup_cons] at hnd
    simp only [initModels]
    rcases List.mem_cons.mp ha with hab | hat
    · subst hab
      rw [initModels_get_notin _ _ _ hnd.1,
        initStep_get_self _ _ (hv a (List.mem_cons_self a t))]
    · rw [ih _ hnd.2 (fun x hx => by
          rw [initStep_size]
          exact hv x (List.mem_cons_of_mem b hx)) hat,
        initStep_get_ne _ _ _ (fun e => hnd.1 (by rw [e]; exact hat))]

/-! ### `applyDicts` and `createLoop` lemmas -/

theorem applyDicts_size (h : Heap) (model : Nat) (ds : List Params) :
    (applyDicts h model ds).1.size = h.size + ds.length := by
  induction ds generalizing h with
  | nil => rfl
  | cons d t ih =>
    simp only [applyDicts]
    rw [ih, smp_size, List.length_cons]
    omega

theorem applyDicts_frame (h : Heap) (model : Nat) (ds : List Params) (a : Nat)
    (ha : a < h.size) :
    (applyDicts h model ds).1.get a = h.get a := by
  induction ds generalizing h with
  | nil => rfl
  | cons d t ih =>
    simp only [applyDicts]
    rw [ih _ (by rw [smp_size]; omega), smp_get_old _ _ _ _ ha]

theorem applyDicts_addrs (h : Heap) (model : Nat) (ds : List Params) :
    ∀ c ∈ (applyDicts h model ds).2, h.size ≤ c ∧ c < (applyDicts h model ds).1.size := by
  induction ds generalizing h with
  | nil => intro c hc; cases hc
  | cons d t ih =>
    intro c hc
    simp only [applyDicts, List.mem_cons] at hc
    simp only [applyDicts, applyDicts_size, smp_size, List.length_cons]
    rcases hc with hc | hc
    · rw [hc, smp_addr]
      omega
    · have h2 := ih (set_model_params h model d).1 c hc
      simp only [applyDicts_size, smp_size] at h2
      omega

theorem applyDicts_len (h : Heap) (model : Nat) (ds : List Params) :
    (applyDicts h model ds).2.length = ds.length := by
  induction ds generalizing h with
  | nil => rfl
  | cons d t ih =>
    simp only [applyDicts, List.length_cons]
    rw [ih]

theorem applyDicts_spec (h : Heap) (model : Nat) (ds : List Params)
    (hm : model < h.size) :
    (applyDicts h model ds).2.map ((applyDicts h model ds).1.get)
      = ds.map (setObjParams (h.get model)) := by
  induction ds generalizing h with
  | nil => rfl
  | cons d t ih =>
    simp only [applyDicts, List.map_cons, List.cons.injEq]
    refine ⟨?_, ?_⟩
    · rw [smp_addr, applyDicts_frame _ _ _ _ (by rw [smp_size]; omega), smp_get_new]
    · rw [ih _ (by rw [smp_size]; omega), smp_get_old _ _ _ _ hm]

theorem getD_lt_of_forall (models : List Nat) (i n : Nat) (hi : i < models.length)
    (hv : ∀ a ∈ models, a < n) : models.getD i 0 < n := by
  rw [List.getD_eq_getElem?_getD, (List.getElem?_eq_some_getElem_iff models i hi).mpr trivial]
  exact hv _ (List.getElem_mem hi)

theorem getD_append_left (models extra : List Nat) (j : Nat) (hj : j < models.length) :
    (models ++ extra).getD j 0 = models.getD j 0 := by
  rw [List.getD_eq_getElem?_getD, List.getD_eq_getElem?_getD,
    List.getElem?_append_left hj]

theorem appendedSpec_length (entries : List ParamsEntry) :
    ∀ (h : Heap) (models : List Nat) (i : Nat),
    (appendedSpec h models i entries).length = totalDicts entries := by
  induction entries with
  | nil => intro h models i; rfl
  | cons e rest ih =>
    intro h models i
    cases e with
    | dict d =>
      simp only [appendedSpec, totalDicts, List.length_cons, ih]
      omega
    | list ds =>
      simp only [appendedSpec, totalDicts, List.length_append, List.length_map, ih]
    | other => simp only [appendedSpec, totalDicts, ih]

theorem appendedSpec_congr (entries : List ParamsEntry) :
    ∀ (h h' : Heap) (models models' : List Nat) (i : Nat),
    (∀ j, i ≤ j → j < i + entries.length →
      h'.get (models'.getD j 0) = h.get (models.getD j 0)) →
    appendedSpec h' models' i entries = appendedSpec h models i entries := by
  induction entries with
  | nil => intro h h' models models' i _; rfl
  | cons e rest ih =>
    intro h h' models models' i hj
    have hhead : h'.get (models'.getD i 0) = h.get (models.getD i 0) :=
      hj i (le_refl i) (by rw [List.length_cons]; omega)
    have htail : appendedSpec h' models' (i + 1) rest = appendedSpec h models (i + 1) rest :=
      ih h h' models models' (i + 1) (fun j hj1 hj2 =>
        hj j (by omega) (by rw [List.length_cons]; omega))
    cases e with
    | dict d => rw [appendedSpec, appendedSpec, hhead, htail]
    | list ds => rw [appendedSpec, appendedSpec, hhead, htail]
    | other => rw [appendedSpec, appendedSpec, htail]

theorem createLoop_spec (entries : List ParamsEntry) :
    ∀ (h : Heap) (models : List Nat) (i : Nat),
    (∀ e ∈ entries, e ≠ ParamsEntry.other) →
    (∀ a ∈ models, a < h.size) →
    i + entries.length ≤ models.length →
    ∃ h' fresh,
      createLoop h models i entries = .ok (h', models ++ fresh) ∧
      fresh.map h'.get = appendedSpec h models i entries ∧
      h.size ≤ h'.size ∧
      (∀ a, a < h.size → h'.get a = h.get a) := by
  induction entries with
  | nil =>
    intro h models i _ _ _
    exact ⟨h, [], by simp [createLoop], rfl, le_refl _, fun a _ => rfl⟩
  | cons e rest ih =>
    intro h models i hval hv hle
    rw [List.length_cons] at hle
    have hi : i < models.length := by omega
    have hmlt : models.getD i 0 < h.size := getD_lt_of_forall models i h.size hi hv
    cases e with
    | other => exact absurd rfl (hval .other (by simp))
    | dict d =>
      obtain ⟨h', fresh', hrun, hmap, hsz, hfr⟩ :=
        ih (set_model_params h (models.getD i 0) d).1
          (models ++ [(set_model_params h (models.getD i 0) d).2]) (i + 1)
          (fun e he => hval e (List.mem_cons_of_mem _ he))
          (by
            intro a ha
            rcases List.mem_append.mp ha with ha | ha
            · rw [smp_size]; exact Nat.lt_succ_of_lt (hv a ha)
            · rw [List.mem_singleton] at ha
              rw [ha, smp_addr, smp_size]; omega)
          (by rw [List.length_append, List.length_singleton]; omega)
      refine ⟨h', (set_model_params h (models.getD i 0) d).2 :: fresh', ?_, ?_, ?_, ?_⟩
      · simp only [createLoop]
        rw [if_pos hi, hrun, List.append_assoc, List.singleton_append]
      · rw [List.map_cons, hmap, appendedSpec]
        have hget : h'.get (set_model_params h (models.getD i 0) d).2
            = setObjParams (h.get (models.getD i 0)) d := by
          rw [smp_addr, hfr h.size (by rw [smp_size]; omega), smp_get_new]
        have hcongr : appendedSpec (set_model_params h (models.getD i 0) d).1
            (models ++ [(set_model_params h (models.getD i 0) d).2]) (i + 1) rest
            = appendedSpec h models (i + 1) rest :=
          appendedSpec_congr rest h (set_model_params h (models.getD i 0) d).1
            models (models ++ [(set_model_params h (models.getD i 0) d).2]) (i + 1)
            (fun j hj1 hj2 => by
              rw [getD_append_left models _ j (by omega),
                smp_get_old _ _ _ _ (getD_lt_of_forall models j h.size (by omega) hv)])
        rw [hget, hcongr]
      · rw [smp_size] at hsz; omega
      · intro a ha
        rw [hfr a (by rw [smp_size]; omega), smp_get_old _ _ _ _ ha]
    | list ds =>
      obtain ⟨h', fresh', hrun, hmap, hsz, hfr⟩ :=
        ih (applyDicts h (models.getD i 0) ds).1
          (models ++ (applyDicts h (models.getD i 0) ds).2) (i + 1)
          (fun e he => hval e (List.mem_cons_of_mem _ he))
          (by
            intro a ha
            rcases List.mem_append.mp ha with ha | ha
            · rw [applyDicts_size]; have := hv a ha; omega
            · exact (applyDicts_addrs h (models.getD i 0) ds a ha).2)
          (by rw [List.length_append]; omega)
      refine ⟨h', (applyDicts h (models.getD i 0) ds).2 ++ fresh', ?_, ?_, ?_, ?_⟩
      · simp only [createLoop]
        rw [if_pos hi, hrun, List.append_assoc]
      · rw [List.map_append, hmap, appendedSpec]
        have hcs : (applyDicts h (models.getD i 0) ds).2.map h'.get
            = ds.map (setObjParams (h.get (models.getD i 0))) := by
          rw [List.map_eq_map_iff.mpr (fun c hc => hfr c
            (applyDicts_addrs h (models.getD i 0) ds c hc).2)]
          exact applyDicts_spec h (models.getD i 0) ds hmlt
        have hcongr : appendedSpec (applyDicts h (models.getD i 0) ds).1
            (models ++ (applyDicts h (models.getD i 0) ds).2) (i + 1) rest
            = appendedSpec h models (i + 1) rest :=
          appendedSpec_congr rest h (applyDicts h (models.getD i 0) ds).1
            models (models ++ (applyDicts h (models.getD i 0) ds).2) (i + 1)
            (fun j hj1 hj2 => by
              rw [getD_append_left models _ j (by omega),
                applyDicts_frame _ _ _ _ (getD_lt_of_forall models j h.size (by omega) hv)])
        rw [hcs, hcongr]
      · rw [applyDicts_size] at hsz; omega
      · intro a ha
        rw [hfr a (by rw [applyDicts_size]; omega),
          applyDicts_frame _ _ _ _ ha]

/-! ### Claim theorems: `create_models` (C1, C4, C8) -/

theorem createLoop_ok (entries : List ParamsEntry) :
    ∀ (h : Heap) (models : List Nat) (i : Nat),
    (∀ e ∈ entries, e ≠ ParamsEntry.other) →
    ∃ r, createLoop h models i entries = .ok r := by
  induction entries with
  | nil => intro h models i _; exact ⟨(h, models), rfl⟩
  | cons e rest ih =>
    intro h models i hval
    by_cases hi : i < models.length
    · cases e with
      | other => exact absurd rfl (hval .other (List.mem_cons_self _ _))
      | dict d =>
        obtain ⟨r, hr⟩ := ih (set_model_params h (models.getD i 0) d).1
          (models ++ [(set_model_params h (models.getD i 0) d).2]) (i + 1)
          (fun e he => hval e (List.mem_cons_of_mem _ he))
        exact ⟨r, by simp only [createLoop]; rw [if_pos hi]; exact hr⟩
      | list ds =>
        obtain ⟨r, hr⟩ := ih (applyDicts h (models.getD i 0) ds).1
          (models ++ (applyDicts h (models.getD i 0) ds).2) (i + 1)
          (fun e he => hval e (List.mem_cons_of_mem _ he))
        exact ⟨r, by simp only [createLoop]; rw [if_pos hi]; exact hr⟩
    · exact ⟨(h, models), by simp only [createLoop]; rw [if_neg hi]⟩

/-- C1 counterexample: for one base model and one supplied parameter dict —
a non-empty base list with a matching parameter list — the list returned by
`create_models` has 2 elements, not 1 (the total number of parameter
dictionaries supplied): the claimed length is wrong. -/
theorem create_models_len_cex :
    (create_models heap2 [0]
        (Option.some [ParamsEntry.dict [("n_estimators", PVal.int 100)]])).map
      (fun r => r.2.length) ≠ Except.ok 1 := by decide

/-- C1 (amended): for a non-empty base list and a matching parameter list of
valid entries, `create_models` returns the (mutated) base models followed by
one fresh model per parameter dictionary: the result length is
`len(base_models) + total number of parameter dicts`, and each appended model
is a copy of its base model with the corresponding dict applied
(`appendedSpec`). -/
theorem create_models_spec (h : Heap) (base : List Nat) (entries : List ParamsEntry)
    (hv : ∀ a ∈ base, a < h.size)
    (hval : ∀ e ∈ entries, e ≠ ParamsEntry.other)
    (hne : base ≠ [])
    (hlen : entries.length = base.length) :
    ∃ h' fresh,
      create_models h base (Option.some entries) = .ok (h', base ++ fresh) ∧
      fresh.length = totalDicts entries ∧
      (base ++ fresh).length = base.length + totalDicts entries ∧
      fresh.map h'.get = appendedSpec (initModels h base).1 base 0 entries := by
  have hbne : entries.isEmpty = false := by
    cases entries with
    | nil =>
      rw [List.length_nil] at hlen
      exact absurd (List.length_eq_zero.mp hlen.symm) hne
    | cons e t => rfl
  obtain ⟨h', fresh, hrun, hmap, _, _⟩ :=
    createLoop_spec entries (initModels h base).1 base 0 hval
      (by intro a ha; rw [initModels_size]; exact hv a ha)
      (by omega)
  have hfl : fresh.length = totalDicts entries := by
    have hc := congrArg List.length hmap
    rwa [List.length_map, appendedSpec_length] at hc
  refine ⟨h', fresh, ?_, hfl, ?_, hmap⟩
  · simp only [create_models]
    rw [hbne, if_neg (by simp), initModels_snd]
    exact hrun
  · rw [List.length_append, hfl]

theorem create_models_spec_witness :
    (∀ a ∈ [0, 1], a < heap2.size) ∧
    (∀ e ∈ [ParamsEntry.dict [("n_estimators", PVal.int 100)],
            ParamsEntry.list [[("max_features", PVal.str "sqrt")], []]],
       e ≠ ParamsEntry.other) ∧
    ([0, 1] ≠ ([] : List Nat)) ∧
    (∃ h' fresh,
      create_models heap2 [0, 1]
          (Option.some [ParamsEntry.dict [("n_estimators", PVal.int 100)],
            ParamsEntry.list [[("max_features", PVal.str "sqrt")], []]])
        = .ok (h', [0, 1] ++ fresh) ∧
      fresh.length = totalDicts [ParamsEntry.dict [("n_estimators", PVal.int 100)],
            ParamsEntry.list [[("max_features", PVal.str "sqrt")], []]] ∧
      ([0, 1] ++ fresh).length = [0, 1].length + totalDicts
            [ParamsEntry.dict [("n_estimators", PVal.int 100)],
             ParamsEntry.list [[("max_features", PVal.str "sqrt")], []]] ∧
      fresh.map h'.get = appendedSpec (initModels heap2 [0, 1]).1 [0, 1] 0
            [ParamsEntry.dict [("n_estimators", PVal.int 100)],
             ParamsEntry.list [[("max_features", PVal.str "sqrt")], []]]) :=
  ⟨by decide, by decide, by decide,
   create_models_spec heap2 [0, 1] _ (by decide) (by decide) (by decide) (by decide)⟩

/-- C4 counterexample: `create_models` constructs and raises its own
`ValueError` when an element of `model_params` is neither a dict nor a list
of dicts — an error originated by repository code, not propagated from an
external library. -/
theorem create_models_raises_value_error :
    create_models heap2 [0] (Option.some [ParamsEntry.other])
      = .error invalidFormatMsg := by decide

/-- C4 (amended): apart from the missing-save-path warning, the only error
repository code itself constructs and raises is the `ValueError` of
`create_models` on an invalid `model_params` entry: whenever every entry is
a dict or a list of dicts, `create_models` raises nothing. -/
theorem create_models_no_error (h : Heap) (base : List Nat)
    (mp : Option (List ParamsEntry))
    (hval : ∀ e ∈ mp.getD [], e ≠ ParamsEntry.other) :
    ∃ r, create_models h base mp = .ok r := by
  cases mp with
  | none => exact ⟨_, rfl⟩
  | some entries =>
    by_cases he : entries.isEmpty
    · exact ⟨_, by simp only [create_models]; rw [if_pos he]⟩
    · obtain ⟨r, hr⟩ := createLoop_ok entries (initModels h base).1
        (initModels h base).2 0 (by simpa using hval)
      exact ⟨r, by simp only [create_models]; rw [if_neg he]; exact hr⟩

theorem create_models_no_error_witness :
    (∀ e ∈ (Option.some [ParamsEntry.dict [("max_samples", PVal.num (1 / 2))]]).getD [],
       e ≠ ParamsEntry.other) ∧
    (∃ r, create_models heap2 [0, 1]
        (Option.some [ParamsEntry.dict [("max_samples", PVal.num (1 / 2))]]) = .ok r) :=
  ⟨by decide, create_models_no_error heap2 [0, 1] _ (by decide)⟩

/-- C8: `create_models` mutates its `base_models` argument in place — after
a successful call every base model object has `random_state = 42` (and
`n_jobs = -1` when its parameters include `n_jobs`), and the first
`len(base_models)` elements of the returned list are the very same
addresses, not copies. -/
theorem create_models_mutates_base (h : Heap) (base : List Nat)
    (mp : Option (List ParamsEntry))
    (hv : ∀ a ∈ base, a < h.size) (hnd : base.Nodup)
    (hval : ∀ e ∈ mp.getD [], e ≠ ParamsEntry.other)
    (hlen : (mp.getD []).length ≤ base.length) :
    ∃ h' res, create_models h base mp = .ok (h', res) ∧
      res.take base.length = base ∧
      ∀ a ∈ base, h'.get a = applyInit (h.get a) ∧
        getParam (h'.get a).params "random_state" = Option.some (.int 42) ∧
        (hasParam (h.get a).params "n_jobs" = true →
          getParam (h'.get a).params "n_jobs" = Option.some (.int (-1))) := by
  have hinit : ∀ a ∈ base, (initModels h base).1.get a = applyInit (h.get a) :=
    fun a ha => initModels_get_mem h base hnd hv a ha
  have hconc : ∀ (h' : Heap), (∀ a ∈ base, h'.get a = applyInit (h.get a)) →
      ∀ a ∈ base, h'.get a = applyInit (h.get a) ∧
        getParam (h'.get a).params "random_state" = Option.some (.int 42) ∧
        (hasParam (h.get a).params "n_jobs" = true →
          getParam (h'.get a).params "n_jobs" = Option.some (.int (-1))) := by
    intro h' hget a ha
    refine ⟨hget a ha, ?_, ?_⟩
    · rw [hget a ha]; exact applyInit_random_state (h.get a)
    · intro hj; rw [hget a ha]; exact applyInit_n_jobs (h.get a) hj
  cases mp with
  | none =>
    refine ⟨(initModels h base).1, base, ?_, List.take_length base, hconc _ hinit⟩
    simp only [create_models]
    rw [initModels_snd]
  | some entries =>
    by_cases he : entries.isEmpty
    · refine ⟨(initModels h base).1, base, ?_, List.take_length base, hconc _ hinit⟩
      simp only [create_models]
      rw [if_pos he, initModels_snd]
    · obtain ⟨h', fresh, hrun, _, _, hfr⟩ :=
        createLoop_spec entries (initModels h base).1 base 0
          (by simpa using hval)
          (by intro a ha; rw [initModels_size]; exact hv a ha)
          (by simpa using hlen)
      refine ⟨h', base ++ fresh, ?_, List.take_left base fresh, hconc _ ?_⟩
      · simp only [create_models]
        rw [if_neg he, initModels_snd]
        exact hrun
      · intro a ha
        rw [hfr a (by rw [initModels_size]; exact hv a ha), hinit a ha]

theorem create_models_mutates_base_witness :
    (∀ a ∈ [0, 1], a < heap2.size) ∧ ([0, 1] : List Nat).Nodup ∧
    (∀ e ∈ ((Option.some [ParamsEntry.dict [("max_depth", PVal.int 3)]]).getD
        ([] : List ParamsEntry)), e ≠ ParamsEntry.other) ∧
    (((Option.some [ParamsEntry.dict [("max_depth", PVal.int 3)]]).getD
        ([] : List ParamsEntry)).length ≤ [0, 1].length) ∧
    (∃ h' res, create_models heap2 [0, 1]
        (Option.some [ParamsEntry.dict [("max_depth", PVal.int 3)]]) = .ok (h', res) ∧
      res.take [0, 1].length = [0, 1] ∧
      ∀ a ∈ [0, 1], h'.get a = applyInit (heap2.get a) ∧
        getParam (h'.get a).params "random_state" = Option.some (.int 42) ∧
        (hasParam (heap2.get a).params "n_jobs" = true →
          getParam (h'.get a).params "n_jobs" = Option.some (.int (-1)))) :=
  ⟨by decide, by decide, by decide, by decide,
   create_models_mutates_base heap2 [0, 1] _ (by decide) (by decide) (by decide) (by decide)⟩

/-! ### Claim theorems: `imputation_test` (C2), `cv_scores` (C5),
`create_results_dataframe` / `load_results_from_folder` (C9) -/

theorem flatMap_length {α β : Type} (l : List α) (f : α → List β) :
    (l.flatMap f).length = (l.map (fun a => (f a).length)).sum := by
  induction l with
  | nil => rfl
  | cons a t ih => simp [List.flatMap_cons, ih]

theorem zip_self_map {α β : Type} (t : α → β) (l : List α) :
    l.zip (l.map t) = l.map (fun a => (a, t a)) := by
  induction l with
  | nil => rfl
  | cons a l ih => simp [ih]

theorem countP_congr_mem {α : Type} (l : List α) (p q : α → Bool)
    (h : ∀ a ∈ l, p a = q a) : l.countP p = l.countP q := by
  induction l with
  | nil => rfl
  | cons a t ih =>
    rw [List.countP_cons, List.countP_cons, h a (List.mem_cons_self a t),
      ih (fun x hx => h x (List.mem_cons_of_mem a hx))]

theorem create_results_dataframe_single (rs : List RecordDict) :
    create_results_dataframe [DFArg.records rs] = .ok rs := rfl

/-- C2 counterexample: one model (`RandomForestClassifier`, which is not in
`HANDLE_MISSINGS_MODELS`) and one `("none", ...)` preprocessor pair: the
full cross-product would give 1 row, but the `continue` skips the pair and
the returned DataFrame has 0 rows. -/
theorem imputation_test_not_full_product :
    (imputation_test (fun _ _ _ => ⟨[], [], []⟩) heap2 ⟨["Monthly_Income"], ["City"]⟩
        [0, 1, 0, 1] [0] [("none", SimpleTransformer.knnImputer)]).map List.length
      ≠ Except.ok (([0] : List Nat).length
          * [("none", SimpleTransformer.knnImputer)].length) := by
  decide

/-- C2 (amended): `imputation_test` appends exactly one record per
(model, preprocessor) pair EXCEPT the pairs whose imputer is `"none"` while
the model is not in `HANDLE_MISSINGS_MODELS`, which are skipped; the
returned DataFrame therefore has, for each model, one row per non-skipped
preprocessor. -/
theorem imputation_test_row_count
    (cvo : MLPipeline → DataFrameX → List Int → CVResults)
    (h : Heap) (X : DataFrameX) (y : List Int) (models : List Nat)
    (preprocessors : List (String × SimpleTransformer)) :
    (imputation_test cvo h X y models preprocessors).map List.length
      = .ok ((models.map (fun a => preprocessors.countP
          (fun ip => !(skipCond (displayName (h.get a)) ip.1)))).sum) := by
  simp only [imputation_test, prepare_models_info]
  rw [create_results_dataframe_single, List.zip_map', zip_self_map]
  simp only [Except.map, List.map_map]
  rw [flatMap_length, List.map_map]
  simp only [Except.ok.injEq]
  refine congrArg (List.sum : List Nat → Nat) (List.map_eq_map_iff.mpr ?_)
  intro a _
  simp only [Function.comp]
  rw [List.length_filterMap_eq_countP]
  apply countP_congr_mem
  intro ip _
  cases hs : skipCond (displayName (h.get a)) ip.1 <;> simp [hs]

/-- C5: `cv_scores` returns a record with exactly the four fields
`Model`, `Parameters`, `ROC_AUC`, `Time[s]`, in which `Model` is the given
model name and `Parameters` the given parameter string. -/
theorem cv_scores_record_fields
    (cvo : MLPipeline → DataFrameX → List Int → CVResults)
    (pipeline : MLPipeline) (X : DataFrameX) (y : List Int)
    (model_name model_params : String) :
    ((cv_scores cvo pipeline X y model_name model_params).map Prod.fst
        = ["Model", "Parameters", "ROC_AUC", "Time[s]"]) ∧
    ((cv_scores cvo pipeline X y model_name model_params).find?
        (fun p => p.1 == "Model") = Option.some ("Model", .str model_name)) ∧
    ((cv_scores cvo pipeline X y model_name model_params).find?
        (fun p => p.1 == "Parameters") = Option.some ("Parameters", .str model_params)) := by
  refine ⟨rfl, ?_, ?_⟩
  · rw [cv_scores, findP_cons_pos (fun p => p.1 == "Model")
      ("Model", PVal.str model_name) _ (by rfl)]
  · rw [cv_scores, findP_cons_neg (fun p => p.1 == "Parameters")
      ("Model", PVal.str model_name) _ (by rfl),
      findP_cons_pos (fun p => p.1 == "Parameters")
      ("Parameters", PVal.str model_params) _ (by rfl)]

/-- C9: `create_results_dataframe` called with zero arguments fails (its
local `df` is never assigned) instead of returning an empty DataFrame, and
consequently `load_results_from_folder` fails on any folder listing that
contains no `.csv` file. -/
theorem create_results_dataframe_empty_fails :
    create_results_dataframe [] = .error unboundLocalMsg ∧
    ∀ (listdir : List String) (read_csv : String → DataFrame) (folder_path : String)
      (cols : List String),
      (∀ f ∈ listdir, strEndsWith f ".csv" = false) →
      load_results_from_folder listdir read_csv folder_path cols
        = .error unboundLocalMsg := by
  refine ⟨rfl, ?_⟩
  intro listdir read_csv fp cols hcsv
  simp only [load_results_from_folder]
  have hnil : listdir.filterMap (fun file_name =>
      if strEndsWith file_name ".csv" then
        Option.some (DFArg.df (selectColumns (read_csv (pathJoin fp file_name)) cols))
      else Option.none) = [] := by
    apply List.filterMap_eq_nil_iff.mpr
    intro f hf
    simp [hcsv f hf]
  rw [hnil]
  rfl

theorem create_results_dataframe_empty_fails_witness :
    (∀ f ∈ ["summary.txt", "notes.md"], strEndsWith f ".csv" = false) ∧
    load_results_from_folder ["summary.txt", "notes.md"] (fun _ => []) "results" ["Model"]
      = .error unboundLocalMsg :=
  ⟨by decide,
   create_results_dataframe_empty_fails.2 ["summary.txt", "notes.md"]
     (fun _ => []) "results" ["Model"] (by decide)⟩

/-! ### Claim theorems: `save_result_data` (C3, C10), `process_fold` (C6),
`randomized_search` (C7) -/

/-- C3: for a call through the `save_result_data` wrapper, a warning is
emitted if and only if no (truthy) `save_results_path` keyword value is
given; when a non-empty path is given, the primary DataFrame is written to
that path as CSV and no warning is emitted, and the caller receives the
primary DataFrame. -/
theorem save_result_data_warn_iff (ret : FuncRet) (srp sarp : Option String) :
    ((save_result_data ret srp sarp).2 = ret.primary) ∧
    ((∃ m, Effect.warn m ∈ (save_result_data ret srp sarp).1) ↔ truthyPath srp = false) ∧
    (∀ s, srp = Option.some s → s.isEmpty = false →
      Effect.writeCsv s ret.primary ∈ (save_result_data ret srp sarp).1 ∧
      ∀ m, Effect.warn m ∉ (save_result_data ret srp sarp).1) := by
  cases ret <;> cases srp <;> cases sarp <;>
    simp only [save_result_data, truthyPath, FuncRet.primary] <;>
    (try split_ifs) <;> (try simp_all)

theorem save_result_data_warn_iff_witness :
    ("results.csv".isEmpty = false) ∧
    (Effect.writeCsv "results.csv" (FuncRet.single dfSample).primary
        ∈ (save_result_data (FuncRet.single dfSample)
            (Option.some "results.csv") Option.none).1 ∧
      ∀ m, Effect.warn m ∉ (save_result_data (FuncRet.single dfSample)
            (Option.some "results.csv") Option.none).1) :=
  ⟨by decide,
   (save_result_data_warn_iff (FuncRet.single dfSample)
       (Option.some "results.csv") Option.none).2.2 "results.csv" rfl (by decide)⟩

/-- C10: when the decorated function returns a 2-tuple, the caller receives
only the DataFrame; the additional data is dumped exactly when it is truthy
(non-empty) AND a truthy `save_additional_results_path` is given; in
particular an empty additional-results dict is silently dropped even when a
path is provided. -/
theorem save_result_data_extra (df : DataFrame) (ex : TScores) (srp sarp : Option String) :
    ((save_result_data (FuncRet.withExtra df ex) srp sarp).2 = df) ∧
    (∀ s scores, Effect.dumpScores s scores
        ∈ (save_result_data (FuncRet.withExtra df ex) srp sarp).1 ↔
      (scores = ex ∧ sarp = Option.some s ∧ ex.isEmpty = false ∧ s.isEmpty = false)) ∧
    (ex = [] → ∀ s scores, Effect.dumpScores s scores
        ∉ (save_result_data (FuncRet.withExtra df ex) srp sarp).1) := by
  cases srp <;> cases sarp <;>
    simp only [save_result_data, FuncRet.primary] <;>
    (try split_ifs) <;> (try simp_all) <;> (try aesop)

theorem save_result_data_extra_witness :
    (([] : TScores) = []) ∧
    (∀ s scores, Effect.dumpScores s scores
        ∉ (save_result_data (FuncRet.withExtra dfSample [])
            (Option.some "results.csv") (Option.some "scores.pkl")).1) :=
  ⟨rfl,
   (save_result_data_extra dfSample [] (Option.some "results.csv")
       (Option.some "scores.pkl")).2.2 rfl⟩

/-- C6: `process_fold` shares no mutable state across workers: the fit
happens on a deep copy of the estimator, so every object that existed
before the call — in particular the estimator passed in — is unchanged
after the call (`X` and `y` are never written in the body). -/
theorem process_fold_no_mutation {Row : Type}
    (fit : ModelObj → List Row → List Int → ModelObj)
    (pred : ModelObj → List Row → List Rat)
    (h : Heap) (train_idx test_idx : List Nat) (X : List Row) (y : List Int)
    (est : Nat) (a : Nat) (ha : a < h.size) :
    (process_fold fit pred h train_idx test_idx X y est).1.get a = h.get a := by
  unfold process_fold deepcopyOp Heap.alloc
  simp only
  rw [Heap.get_set_ne _ _ _ _ (Nat.ne_of_gt ha), Heap.get_ext h _ a ha]

theorem process_fold_no_mutation_witness :
    (0 < heap2.size) ∧
    (process_fold (fun m _ _ => m) (fun _ _ => [])
        heap2 [0] [1] ([10, 20] : List Int) [0, 1] 1).1.get 0 = heap2.get 0 :=
  ⟨by decide,
   process_fold_no_mutation (fun m _ _ => m) (fun _ _ => [])
     heap2 [0] [1] [10, 20] [0, 1] 1 0 (by decide)⟩

theorem rsLoop_spec (search : MLPipeline → ParamGrid → Nat → DataFrameX → List Int → SearchOutcome)
    (p0 p1 : SimpleTransformer) (n_iter : Nat) (folder : String)
    (X : DataFrameX) (y : List Int) (pairs : List (ModelObj × ParamGrid)) :
    ∀ acc : List Effect × List RecordDict × TScores,
    (∀ mg ∈ pairs,
      (rankOneTime (search (rsPipeline p0 p1 mg.1) mg.2 n_iter X y)).isSome = true) →
    ∃ scores, rsLoop search p0 p1 n_iter folder X y pairs acc =
      .ok (acc.1 ++ pairs.map (rsEffSpec search p0 p1 n_iter folder X y),
           acc.2.1 ++ pairs.map (rsRowSpec search p0 p1 n_iter X y),
           scores) := by
  induction pairs with
  | nil => intro acc _; exact ⟨acc.2.2, by simp [rsLoop]⟩
  | cons mg rest ih =>
    intro acc hrank
    cases mg with
    | mk model grid =>
      have hr := hrank (model, grid) (List.mem_cons_self _ _)
      obtain ⟨t, ht⟩ := Option.isSome_iff_exists.mp hr
      obtain ⟨scores, hs⟩ := ih
        (acc.1 ++ [Effect.dumpPipeline (pathJoin folder (model.className ++ ".pkl"))
            (search (rsPipeline p0 p1 model) grid n_iter X y).best_estimator],
         acc.2.1 ++ [[("Model", PVal.str model.className),
            ("ROC_AUC", PVal.num (npRound 4
              (search (rsPipeline p0 p1 model) grid n_iter X y).best_score)),
            ("Time[s]", PVal.num (npRound 2 t))]],
         dictSet acc.2.2 model.className
            (search (rsPipeline p0 p1 model) grid n_iter X y).mean_test_score)
        (fun x hx => hrank x (List.mem_cons_of_mem _ hx))
      refine ⟨scores, ?_⟩
      simp only [rsLoop, ht]
      rw [hs]
      simp only [List.map_cons, rsEffSpec, rsRowSpec, ht, Option.getD_some,
        List.append_assoc, List.singleton_append]

/-- C7: `randomized_search` serializes one artifact per model — the best
estimator found, at `save_artifact_folder` joined with the model class name
plus `.pkl` — and its ranking DataFrame has one row per model with exactly
the fields `Model`, `ROC_AUC`, `Time[s]`, where `Model` is the class name. -/
theorem randomized_search_spec
    (search : MLPipeline → ParamGrid → Nat → DataFrameX → List Int → SearchOutcome)
    (X : DataFrameX) (y : List Int) (models : List ModelObj) (grids : List ParamGrid)
    (p0 p1 : SimpleTransformer) (prest : List SimpleTransformer)
    (n_iter : Nat) (folder : String)
    (hlen : grids.length = models.length)
    (hrank : ∀ mg ∈ models.zip grids,
      (rankOneTime (search (rsPipeline p0 p1 mg.1) mg.2 n_iter X y)).isSome = true) :
    ∃ scores,
      randomized_search search X y models grids (p0 :: p1 :: prest) n_iter folder
        = .ok ((models.zip grids).map (rsEffSpec search p0 p1 n_iter folder X y),
               (models.zip grids).map (rsRowSpec search p0 p1 n_iter X y),
               scores) ∧
      ((models.zip grids).map (rsRowSpec search p0 p1 n_iter X y)).length = models.length ∧
      ∀ mg ∈ models.zip grids,
        (rsRowSpec search p0 p1 n_iter X y mg).map Prod.fst
          = ["Model", "ROC_AUC", "Time[s]"] ∧
        (rsRowSpec search p0 p1 n_iter X y mg).find? (fun p => p.1 == "Model")
          = Option.some ("Model", PVal.str mg.1.className) := by
  obtain ⟨scores, hs⟩ :=
    rsLoop_spec search p0 p1 n_iter folder X y (models.zip grids) ([], [], []) hrank
  refine ⟨scores, ?_, ?_, ?_⟩
  · simp only [randomized_search]
    rw [hs]
    simp only [List.nil_append]
    rw [create_results_dataframe_single]
  · rw [List.length_map, List.length_zip, hlen, Nat.min_self]
  · intro mg _
    refine ⟨rfl, ?_⟩
    rw [rsRowSpec, findP_cons_pos (fun p => p.1 == "Model")
      ("Model", PVal.str mg.1.className) _ (by rfl)]

theorem randomized_search_spec_witness :
    (gridsW.length = [lrModel].length) ∧
    (∀ mg ∈ [lrModel].zip gridsW,
      (rankOneTime (searchO (rsPipeline (SimpleTransformer.otherTransformer "scaler")
        (SimpleTransformer.otherTransformer "remover") mg.1) mg.2 5 ⟨[], []⟩ [])).isSome
        = true) ∧
    (∃ scores,
      randomized_search searchO ⟨[], []⟩ [] [lrModel] gridsW
          (SimpleTransformer.otherTransformer "scaler"
            :: SimpleTransformer.otherTransformer "remover" :: []) 5 "artifacts"
        = .ok (([lrModel].zip gridsW).map (rsEffSpec searchO
                 (SimpleTransformer.otherTransformer "scaler")
                 (SimpleTransformer.otherTransformer "remover") 5 "artifacts" ⟨[], []⟩ []),
               ([lrModel].zip gridsW).map (rsRowSpec searchO
                 (SimpleTransformer.otherTransformer "scaler")
                 (SimpleTransformer.otherTransformer "remover") 5 ⟨[], []⟩ []),
               scores) ∧
      (([lrModel].zip gridsW).map (rsRowSpec searchO
          (SimpleTransformer.otherTransformer "scaler")
          (SimpleTransformer.otherTransformer "remover") 5 ⟨[], []⟩ [])).length
        = [lrModel].length ∧
      ∀ mg ∈ [lrModel].zip gridsW,
        (rsRowSpec searchO (SimpleTransformer.otherTransformer "scaler")
            (SimpleTransformer.otherTransformer "remover") 5 ⟨[], []⟩ [] mg).map Prod.fst
          = ["Model", "ROC_AUC", "Time[s]"] ∧
        (rsRowSpec searchO (SimpleTransformer.otherTransformer "scaler")
            (SimpleTransformer.otherTransformer "remover") 5 ⟨[], []⟩ [] mg).find?
            (fun p => p.1 == "Model")
          = Option.some ("Model", PVal.str mg.1.className)) :=
  ⟨by decide, by decide,
   randomized_search_spec searchO ⟨[], []⟩ [] [lrModel] gridsW
     (SimpleTransformer.otherTransformer "scaler")
     (SimpleTransformer.otherTransformer "remover") [] 5 "artifacts"
     (by decide) (by decide)⟩
